import Mathlib

/-
Verification of the lynx repository's edge-generation, search, LOD and
wormhole logic against its specification.

The embedding is shallow: the TypeScript routines are translated into
executable Lean definitions over ℚ (JS numbers are modelled as exact
rationals; every operation the modelled code paths perform on them is
field arithmetic and comparison), and the claims of the specification are
proved or refuted about those definitions.
-/

namespace Lynx

/-! ## Stable descending sort

JS Array.prototype.sort with the comparator (a, b) => f(b) - f(a) is a
stable descending sort by f: elements with equal keys keep their original
relative order. We model it by insertion sort in which an element passes
over exactly the elements with strictly greater key. -/

/-- Insert c into a descending-by-f list, placing it after every element with
strictly greater key and before the rest (so equal keys keep input order). -/
def insertDescBy {α : Type} (f : α → ℚ) (c : α) : List α → List α
  | [] => [c]
  | d :: ds => if f c < f d then d :: insertDescBy f c ds else c :: d :: ds

/-- Stable descending sort by key f, modelling JS sort((a, b) => f(b) - f(a)). -/
def sortDescBy {α : Type} (f : α → ℚ) : List α → List α
  | [] => []
  | c :: cs => insertDescBy f c (sortDescBy f cs)

/-! ## GraphBuilder: the POST edge-generation route

Model of apps/web/src/app/api/status/route.ts (POST handler), the admin
route that computes pairwise cosine similarities and writes similarity
edges. rows lists the loaded embeddings' concept ids in load order
(embeddingsData); sim i j is the cosine similarity the route computes from
the stored vectors of rows i and j — the edge-generation logic consumes
that value only as a scalar, so we parametrise by the similarity matrix
rather than re-deriving square roots. -/

/-- Edge type enumeration of the edges table (edge_type column of schema.ts). -/
inductive EdgeType
  | similarity
  | citation
  | category
deriving DecidableEq, Repr, BEq

/-- One edge record as assembled by the POST handler. The random UUID id and
the created_at timestamp are not modelled; no claim concerns them. -/
structure EdgeRec where
  sourceId : String
  targetId : String
  weight : ℚ
  edgeType : EdgeType
deriving DecidableEq, Repr, BEq

/-- A candidate pushed into the per-source similarities list. -/
structure SimCand where
  conceptId : String
  similarity : ℚ
deriving DecidableEq, Repr, BEq

/-- Inner loop of the similarity pass: for source index i the route scans
j = i+1 .. n-1 in order and keeps (target concept id, similarity) whenever
similarity >= threshold. -/
def candidatesFor (rows : List String) (sim : Nat → Nat → ℚ) (threshold : ℚ)
    (i : Nat) : List SimCand :=
  (List.range' (i + 1) (rows.length - (i + 1))).filterMap (fun j =>
    if threshold ≤ sim i j then
      some { conceptId := rows.getD j "", similarity := sim i j }
    else none)

/-- Edges pushed for source index i: sort the candidates descending by
similarity (stable JS sort), take maxEdgesPerNode, and emit one directed
similarity edge per surviving candidate. -/
def edgesFrom (rows : List String) (sim : Nat → Nat → ℚ) (threshold : ℚ)
    (maxEdgesPerNode : Nat) (i : Nat) : List EdgeRec :=
  ((sortDescBy SimCand.similarity (candidatesFor rows sim threshold i)).take
      maxEdgesPerNode).map (fun c =>
    { sourceId := rows.getD i "", targetId := c.conceptId,
      weight := c.similarity, edgeType := EdgeType.similarity })

/-- The full similarity pass of the POST handler: the outer loop over all
loaded embeddings, concatenating each source's emitted edges (newEdges). -/
def buildEdges (rows : List String) (sim : Nat → Nat → ℚ) (threshold : ℚ)
    (maxEdgesPerNode : Nat) : List EdgeRec :=
  ((List.range rows.length).map (edgesFrom rows sim threshold maxEdgesPerNode)).flatten

/-- HTTP outcome of the route, reduced to what the claims observe. -/
inductive RouteResponse
  | ok (insertedEdges : Nat)
  | err (status : Nat) (msg : String)
deriving DecidableEq, Repr, BEq

/-- Outcome of one POST run: the response and the resulting edges table.
finalEdges is none when the run aborts mid-insert (the source then leaves
the earlier, already committed batches in place; no claim depends on that
intermediate table state, so it is left unmodelled). -/
structure RunOutcome where
  response : RouteResponse
  finalEdges : Option (List EdgeRec)
deriving DecidableEq, Repr, BEq

/-- Plain row INSERT of the new edges under the unique_edge constraint of
schema.ts (UNIQUE on (source_id, target_id, edge_type)): the route issues
db.insert(edges).values(batch) with no ON CONFLICT clause, so inserting an
edge whose key is already present fails. Inserting batch by batch in order
performs exactly these row inserts in order. -/
def insertPlain (db : List EdgeRec) : List EdgeRec → Except String (List EdgeRec)
  | [] => Except.ok db
  | e :: es =>
    if db.any (fun e2 => e2.sourceId == e.sourceId && e2.targetId == e.targetId &&
        e2.edgeType == e.edgeType) then
      Except.error "unique_edge violation"
    else
      insertPlain (db ++ [e]) es

/-- End-to-end model of the POST handler after authentication: step 1 clears
the whole edges table (db.delete(edges), no type filter) when clear=true;
step 2 loads the embeddings and answers 400 when none exist; step 3 computes
the similarity edges; step 4 inserts them (batched plain INSERTs, with the
catch-all turning a constraint violation into a 500). -/
def runEdgeGeneration (db : List EdgeRec) (rows : List String)
    (sim : Nat → Nat → ℚ) (threshold : ℚ) (maxEdgesPerNode : Nat)
    (clearExisting : Bool) : RunOutcome :=
  let db1 := if clearExisting then [] else db
  if rows.isEmpty then
    { response := RouteResponse.err 400 "No embeddings found. Generate embeddings first.",
      finalEdges := some db1 }
  else
    let newEdges := buildEdges rows sim threshold maxEdgesPerNode
    match insertPlain db1 newEdges with
    | Except.ok db2 => { response := RouteResponse.ok newEdges.length, finalEdges := some db2 }
    | Except.error msg => { response := RouteResponse.err 500 msg, finalEdges := none }

/-! ## The specification's description of GraphBuilder

For the refinement comparison of claim C1, a second builder that follows the
spec's words instead of the source: "for each node, assemble the union of
similarities from both directions of every comparison involving it (a pair
computed once must populate both endpoints' candidate lists), keep only
candidates with sim ≥ τ, sort descending by similarity with a deterministic
tie-break (ascending target id), and truncate to top K. Each surviving
(source, kept-neighbor) pair becomes one directed similarity edge." -/

/-- Similarity of the unordered pair, computed once (the matrix entry of the
earlier index toward the later one feeds both directions). -/
def pairSim (sim : Nat → Nat → ℚ) (i j : Nat) : ℚ :=
  if i ≤ j then sim i j else sim j i

/-- Spec-described candidate list of node i: both directions of every
comparison involving i, kept when the similarity reaches the threshold. -/
def specCandidatesFor (rows : List String) (sim : Nat → Nat → ℚ) (threshold : ℚ)
    (i : Nat) : List SimCand :=
  (List.range rows.length).filterMap (fun j =>
    if j ≠ i ∧ threshold ≤ pairSim sim i j then
      some { conceptId := rows.getD j "", similarity := pairSim sim i j }
    else none)

/-- Spec-described ordering: descending by similarity, ties broken by
ascending target id. -/
def specInsertDesc (c : SimCand) : List SimCand → List SimCand
  | [] => [c]
  | d :: ds =>
    if d.similarity < c.similarity ∨
        (d.similarity = c.similarity ∧ c.conceptId < d.conceptId) then
      c :: d :: ds
    else d :: specInsertDesc c ds

/-- Sort by the spec-described ordering. -/
def specSortDesc : List SimCand → List SimCand
  | [] => []
  | c :: cs => specInsertDesc c (specSortDesc cs)

/-- Spec-described per-node edges: top K of the two-sided candidate list. -/
def specEdgesFrom (rows : List String) (sim : Nat → Nat → ℚ) (threshold : ℚ)
    (maxEdgesPerNode : Nat) (i : Nat) : List EdgeRec :=
  ((specSortDesc (specCandidatesFor rows sim threshold i)).take maxEdgesPerNode).map
    (fun c =>
      { sourceId := rows.getD i "", targetId := c.conceptId,
        weight := c.similarity, edgeType := EdgeType.similarity })

/-- The edge set the specification's GraphBuilder text describes. -/
def specDescribedBuildEdges (rows : List String) (sim : Nat → Nat → ℚ)
    (threshold : ℚ) (maxEdgesPerNode : Nat) : List EdgeRec :=
  ((List.range rows.length).map
    (specEdgesFrom rows sim threshold maxEdgesPerNode)).flatten

/-! ## Concrete scenario of claim C1

Concepts A, B, C with cos(A,B) = 0.9, cos(A,C) = 0.5, cos(B,C) = 0.5,
threshold 0.6, maxEdgesPerNode K = 1. -/

/-- The three concepts in load order. -/
def rowsABC : List String := ["A", "B", "C"]

/-- The scenario's cosine similarity matrix: 0.9 for the pair (A, B), 0.5 for
the other distinct pairs. -/
def simABC : Nat → Nat → ℚ := fun i j =>
  if (i = 0 ∧ j = 1) ∨ (i = 1 ∧ j = 0) then 9 / 10
  else if i = j then 1
  else 1 / 2

/-- The two directed realisations of one unordered pair (a, b): an edge counts
when it runs a to b or b to a. -/
def pairPred (a b : String) (e : EdgeRec) : Bool :=
  (e.sourceId == a && e.targetId == b) || (e.sourceId == b && e.targetId == a)

/-! ## Text search route

Model of the GET search route (src/unnamed/part_015): case-insensitive
substring match of the query against concept title and summary, every hit
given the constant placeholder similarity 1.0 the route hard-codes
(sql`1.0`), capped at the requested limit. The rows are assumed listed in
the created_at-descending order the SQL orderBy imposes. -/

/-- Byte-free character-list equality of a leading segment. -/
def charsLeading : List Char → List Char → Bool
  | [], _ => true
  | _ :: _, [] => false
  | a :: as, b :: bs => a == b && charsLeading as bs

/-- Contiguous occurrence of needle anywhere in hay. -/
def charsAnywhere (needle : List Char) : List Char → Bool
  | [] => charsLeading needle []
  | b :: bs => charsLeading needle (b :: bs) || charsAnywhere needle bs

/-- ASCII lowering of one character, the effect JS toLowerCase has on the
ASCII range. -/
def lowerChar (c : Char) : Char :=
  if 'A' ≤ c ∧ c ≤ 'Z' then Char.ofNat (c.toNat + 32) else c

/-- Case-insensitive substring test: ILIKE '%query%' on hay. -/
def containsCI (hay q : String) : Bool :=
  charsAnywhere (q.toList.map lowerChar) (hay.toList.map lowerChar)

/-- Case-sensitive substring test, JS String.prototype.includes. -/
def containsStr (hay q : String) : Bool :=
  charsAnywhere q.toList hay.toList

/-- A row of the concepts table, reduced to what the search route reads. -/
structure ConceptRow where
  id : String
  title : String
  summary : String
deriving DecidableEq, Repr, BEq

/-- One search result as SearchResultSchema shapes it: a concept plus a bare
numeric similarity. The schema has no other discriminating field: there is no
result-kind tag (packages/shared/src/types.ts). -/
structure SearchResultRec where
  conceptId : String
  similarity : ℚ
deriving DecidableEq, Repr, BEq

/-- The text search route: keep concepts whose title or summary contains the
query case-insensitively, cap at limit, and give every hit the constant
placeholder similarity 1.0. -/
def textSearch (rows : List ConceptRow) (query : String) (limit : Nat) :
    List SearchResultRec :=
  ((rows.filter (fun c => containsCI c.title query || containsCI c.summary query)).take
      limit).map (fun c => { conceptId := c.id, similarity := 1 })

/-! ## LODSystem

Model of apps/web/src/components/galaxy/lod-system.tsx. The three.js camera
enters only through three scalars the component derives from it: the camera's
distance from the origin (cameraPos.length()), the per-node camera distance
(cameraPos.distanceTo), and the frustum membership test — all consumed as
bare values by the selection logic, so they are inputs of the model. -/

/-- A 3D position. -/
structure Vec3 where
  x : ℚ
  y : ℚ
  z : ℚ
deriving DecidableEq, Repr, BEq

/-- A node as the LOD component consumes it. -/
structure LODNode where
  id : String
  title : String
  position : Vec3
  size : ℚ
  color : String
  importance : Option ℚ
  category : Option String
deriving DecidableEq, Repr, BEq

/-- One LOD tier: distance upper bound, node budget, minimum size, optional
clustering radius. -/
structure LODLevel where
  distance : ℚ
  maxNodes : Nat
  minSize : ℚ
  clusterRadius : Option ℚ
deriving DecidableEq, Repr, BEq

/-- Placeholder tier for an out-of-range lookup; the source would throw on an
empty tier list, so the claims assume the list nonempty. -/
def defaultLevel : LODLevel :=
  { distance := 0, maxNodes := 0, minSize := 0, clusterRadius := none }

/-- JS node.importance || 0.5 — note 0 is falsy and also falls back. -/
def impOr (n : LODNode) : ℚ :=
  match n.importance with
  | none => 1 / 2
  | some v => if v = 0 then 1 / 2 else v

/-- The tier-selection loop: let lodLevel = 0; for each i, if the camera
distance is within tier i's bound, settle on i; otherwise remember i and
continue, so that with no matching tier the last index remains. -/
def selectLodLevelFrom (d : ℚ) : Nat → Nat → List LODLevel → Nat
  | cur, _, [] => cur
  | _, i, l :: ls => if d ≤ l.distance then i else selectLodLevelFrom d i (i + 1) ls

/-- Tier index chosen for a camera distance. -/
def selectLodLevel (levels : List LODLevel) (d : ℚ) : Nat :=
  selectLodLevelFrom d 0 0 levels

/-- Uniform-grid cell of a node: floor of each coordinate over the radius,
the clusterKey string of the source. -/
def cellKey (r : ℚ) (n : LODNode) : ℤ × ℤ × ℤ :=
  (⌊n.position.x / r⌋, ⌊n.position.y / r⌋, ⌊n.position.z / r⌋)

/-- Record a key the first time it appears (JS object keys keep insertion
order for these underscore-joined strings). -/
def insertKeyOnce (k : ℤ × ℤ × ℤ) (ks : List (ℤ × ℤ × ℤ)) : List (ℤ × ℤ × ℤ) :=
  if k ∈ ks then ks else ks ++ [k]

/-- Cell keys in first-appearance order. -/
def cellKeys (r : ℚ) (nodes : List LODNode) : List (ℤ × ℤ × ℤ) :=
  nodes.foldl (fun ks n => insertKeyOnce (cellKey r n) ks) []

/-- The clusters object: each key with its members in traversal order. -/
def groupByCell (r : ℚ) (nodes : List LODNode) :
    List ((ℤ × ℤ × ℤ) × List LODNode) :=
  (cellKeys r nodes).map (fun k =>
    (k, nodes.filter (fun n => decide (cellKey r n = k))))

/-- The avgPos reduce: each member contributes coordinate / memberCount. -/
def centroid (ms : List LODNode) : Vec3 :=
  ms.foldl (fun acc n =>
    { x := acc.x + n.position.x / ms.length,
      y := acc.y + n.position.y / ms.length,
      z := acc.z + n.position.z / ms.length }) { x := 0, y := 0, z := 0 }

/-- Math.max over the members' effective importances. -/
def maxImpOf : List LODNode → ℚ
  | [] => 0
  | n :: ns => ns.foldl (fun m x => max m (impOr x)) (impOr n)

/-- Average member size. -/
def avgSizeOf (ms : List LODNode) : ℚ :=
  (ms.foldl (fun s n => s + n.size) 0) / ms.length

/-- The representative reduce: current replaces prev exactly when strictly
more important, so the first member attaining the maximum wins. -/
def pickRep : LODNode → List LODNode → LODNode
  | prev, [] => prev
  | prev, c :: cs => pickRep (if impOr prev < impOr c then c else prev) cs

/-- Collapse one cell: singletons pass through; larger cells become one
representative — the most important member, moved to the centroid, resized to
min(1.5 x average size, 3.0), importance the members' maximum, title labelled
with the collapsed count. -/
def collapseCell : List LODNode → List LODNode
  | [] => []
  | [n] => [n]
  | n :: m :: ms =>
    let members := n :: m :: ms
    let rep := pickRep n (m :: ms)
    [{ rep with
        position := centroid members,
        size := min (avgSizeOf members * (3 / 2)) 3,
        importance := some (maxImpOf members),
        title := rep.title ++ " (+" ++ toString (members.length - 1) ++ " more)" }]

/-- clusterNodes: pass through when clustering is disabled or the radius is
falsy (0); otherwise collapse every cell of the uniform grid. -/
def clusterNodes (enableClustering : Bool) (nodes : List LODNode) (r : ℚ) :
    List LODNode :=
  if enableClustering = false ∨ r = 0 then nodes
  else ((groupByCell r nodes).map (fun g => collapseCell g.2)).flatten

/-- The enhanced scoring of one node at a given tier index, with nodeDist the
camera-to-node distance. -/
def lodScore (lodLevel : Nat) (nodeDist : LODNode → ℚ) (n : LODNode) : ℚ :=
  let distanceScore := max 0 ((2000 - nodeDist n) / 2000)
  let importanceScore := impOr n
  let sizeScore := min (n.size / 3) 1
  let categoryBonus : ℚ :=
    match n.category with
    | none => 0
    | some s => if containsStr s "Academic" then 1 / 10 else 0
  let distanceWeight := max (2 / 5) (4 / 5 - (lodLevel : ℚ) * (1 / 10))
  let importanceWeight := min (1 / 2) (1 / 5 + (lodLevel : ℚ) * (1 / 10))
  distanceScore * distanceWeight + importanceScore * importanceWeight +
    sizeScore * (1 / 5) + categoryBonus

/-- What the LOD computation returns to its children. -/
structure LODResult where
  visibleNodes : List LODNode
  currentLodLevel : Nat
deriving DecidableEq, Repr, BEq

/-- The memoized frustum culling: filter to the frustum when enabled. -/
def lodCulled (nodes : List LODNode) (enableFrustumCulling : Bool)
    (inFrustum : LODNode → Bool) : List LODNode :=
  if enableFrustumCulling then nodes.filter inFrustum else nodes

/-- The working node set right before scoring: frustum culling, clustering
when the selected tier specifies a radius, then the minimum-size filter. -/
def lodPrepared (nodes : List LODNode)
    (enableFrustumCulling enableClustering : Bool) (lodLevels : List LODLevel)
    (cameraDistance : ℚ) (inFrustum : LODNode → Bool) : List LODNode :=
  let culled := lodCulled nodes enableFrustumCulling inFrustum
  let currentLod := lodLevels.getD (selectLodLevel lodLevels cameraDistance)
    defaultLevel
  let working1 :=
    match currentLod.clusterRadius with
    | some r => clusterNodes enableClustering culled r
    | none => culled
  working1.filter (fun n => currentLod.minSize ≤ n.size)

/-- The main LOD calculation: frustum culling (when enabled), tier selection
by camera distance, clustering when the tier specifies a radius, minimum-size
filtering, stable descending sort by LOD score, and truncation to
min(tier budget, maxNodes prop). -/
def lodCompute (nodes : List LODNode) (maxNodes : Nat)
    (enableFrustumCulling enableClustering : Bool) (lodLevels : List LODLevel)
    (cameraDistance : ℚ) (nodeDist : LODNode → ℚ) (inFrustum : LODNode → Bool) :
    LODResult :=
  let lodLevel := selectLodLevel lodLevels cameraDistance
  let currentLod := lodLevels.getD lodLevel defaultLevel
  { visibleNodes := (sortDescBy (lodScore lodLevel nodeDist)
      (lodPrepared nodes enableFrustumCulling enableClustering lodLevels
        cameraDistance inFrustum)).take (min currentLod.maxNodes maxNodes),
    currentLodLevel := lodLevel }

/-- The two clustered nodes of the C7 analysis: same grid cell at radius 10,
importances 0.9 and 0.5, categories "A" and "Z". -/
def nodeP : LODNode :=
  { id := "p", title := "P", position := { x := 0, y := 0, z := 0 }, size := 1,
    color := "white", importance := some (9 / 10), category := some "A" }

/-- Companion node of nodeP in the same cell, less important, category "Z". -/
def nodeQ : LODNode :=
  { id := "q", title := "Q", position := { x := 1, y := 1, z := 1 }, size := 1,
    color := "white", importance := some (1 / 2), category := some "Z" }

/-! ## WormholeDetector

Model of the concept-detail GET route (src/unnamed/part_016): the neighbors
list arrives sorted descending by edge weight (SQL orderBy desc, limit 20);
wormholes keep the neighbors whose category and the source concept's category
are both truthy and different and whose edge weight exceeds 0.8, then slice
to the first 5. -/

/-- A joined neighbor row: the neighbor concept's category and the connecting
edge's weight. -/
structure NeighborRow where
  conceptId : String
  category : Option String
  weight : ℚ
deriving DecidableEq, Repr, BEq

/-- JS truthiness of a nullable string: present and nonempty. -/
def truthyCat : Option String → Bool
  | none => false
  | some s => !(s == "")

/-- The wormhole filter with its hard-coded cross-domain threshold 0.8 and
limit 5. -/
def findWormholes (conceptCategory : Option String)
    (neighbors : List NeighborRow) : List NeighborRow :=
  (neighbors.filter (fun nb =>
    truthyCat nb.category && truthyCat conceptCategory &&
      !(decide (nb.category = conceptCategory)) &&
      decide ((4 / 5 : ℚ) < nb.weight))).take 5

/-! ## Lemmas about the stable sort -/

lemma insertDescBy_perm {α : Type} (f : α → ℚ) (c : α) :
    ∀ l : List α, (insertDescBy f c l).Perm (c :: l)
  | [] => List.Perm.refl _
  | d :: ds => by
    rw [insertDescBy]
    split
    · exact ((insertDescBy_perm f c ds).cons d).trans (List.Perm.swap c d ds)
    · exact List.Perm.refl _

lemma sortDescBy_perm {α : Type} (f : α → ℚ) :
    ∀ l : List α, (sortDescBy f l).Perm l
  | [] => List.Perm.refl _
  | c :: cs => (insertDescBy_perm f c (sortDescBy f cs)).trans
      ((sortDescBy_perm f cs).cons c)

lemma mem_sortDescBy {α : Type} {f : α → ℚ} {a : α} {l : List α} :
    a ∈ sortDescBy f l ↔ a ∈ l :=
  (sortDescBy_perm f l).mem_iff

lemma pairwise_insertDescBy {α : Type} (f : α → ℚ) (c : α) :
    ∀ {l : List α}, l.Pairwise (fun a b => f b ≤ f a) →
      (insertDescBy f c l).Pairwise (fun a b => f b ≤ f a)
  | [], _ => by simp [insertDescBy]
  | d :: ds, h => by
    obtain ⟨hd, hds⟩ := List.pairwise_cons.1 h
    rw [insertDescBy]
    split
    · rename_i hlt
      refine List.pairwise_cons.2 ⟨?_, pairwise_insertDescBy f c hds⟩
      intro b hb
      rcases List.mem_cons.1 ((insertDescBy_perm f c ds).mem_iff.1 hb) with rfl | hb
      · exact le_of_lt hlt
      · exact hd b hb
    · rename_i hge
      refine List.pairwise_cons.2 ⟨?_, h⟩
      intro b hb
      rcases List.mem_cons.1 hb with rfl | hb
      · exact le_of_not_lt hge
      · exact le_trans (hd b hb) (le_of_not_lt hge)

lemma pairwise_sortDescBy {α : Type} (f : α → ℚ) :
    ∀ l : List α, (sortDescBy f l).Pairwise (fun a b => f b ≤ f a)
  | [] => List.Pairwise.nil
  | c :: cs => pairwise_insertDescBy f c (pairwise_sortDescBy f cs)

/-! ## Provenance lemmas for the generated edges -/

lemma mem_candidatesFor {rows : List String} {sim : Nat → Nat → ℚ} {τ : ℚ}
    {i : Nat} {c : SimCand} (hc : c ∈ candidatesFor rows sim τ i) :
    ∃ j, i < j ∧ j < rows.length ∧ c.conceptId = rows.getD j "" ∧
      c.similarity = sim i j ∧ τ ≤ sim i j := by
  rw [candidatesFor, List.mem_filterMap] at hc
  obtain ⟨j, hj, hcj⟩ := hc
  rw [List.mem_range'] at hj
  obtain ⟨t, ht, rfl⟩ := hj
  split at hcj
  · rename_i hτ
    cases hcj
    exact ⟨i + 1 + 1 * t, by omega, by omega, rfl, rfl, hτ⟩
  · cases hcj

lemma mem_edgesFrom {rows : List String} {sim : Nat → Nat → ℚ} {τ : ℚ}
    {K : Nat} {i : Nat} {e : EdgeRec} (he : e ∈ edgesFrom rows sim τ K i) :
    e.sourceId = rows.getD i "" ∧ e.edgeType = EdgeType.similarity ∧
      ∃ j, i < j ∧ j < rows.length ∧ e.targetId = rows.getD j "" ∧
        e.weight = sim i j ∧ τ ≤ sim i j := by
  rw [edgesFrom, List.mem_map] at he
  obtain ⟨c, hc, rfl⟩ := he
  have hc2 : c ∈ candidatesFor rows sim τ i :=
    mem_sortDescBy.1 ((List.take_sublist K _).subset hc)
  obtain ⟨j, hij, hjn, hcid, hcs, hτ⟩ := mem_candidatesFor hc2
  exact ⟨rfl, rfl, j, hij, hjn, hcid, hcs, hτ⟩

lemma mem_buildEdges {rows : List String} {sim : Nat → Nat → ℚ} {τ : ℚ}
    {K : Nat} {e : EdgeRec} (he : e ∈ buildEdges rows sim τ K) :
    ∃ i, i < rows.length ∧ e ∈ edgesFrom rows sim τ K i := by
  rw [buildEdges, List.mem_flatten] at he
  obtain ⟨l, hl, hel⟩ := he
  rw [List.mem_map] at hl
  obtain ⟨i, hi, rfl⟩ := hl
  exact ⟨i, List.mem_range.1 hi, hel⟩

lemma length_edgesFrom_le (rows : List String) (sim : Nat → Nat → ℚ) (τ : ℚ)
    (K : Nat) (i : Nat) : (edgesFrom rows sim τ K i).length ≤ K := by
  rw [edgesFrom, List.length_map, List.length_take]
  exact min_le_left _ _

lemma getD_inj_of_nodup {rows : List String} (hnd : rows.Nodup) {i j : Nat}
    (hi : i < rows.length) (hj : j < rows.length)
    (h : rows.getD i "" = rows.getD j "") : i = j := by
  rw [List.getD_eq_getElem _ _ hi, List.getD_eq_getElem _ _ hj] at h
  exact hnd.getElem_inj_iff.1 h

lemma sum_map_indicator (K : Nat) :
    ∀ {n i₀ : Nat}, i₀ < n →
      ((List.range n).map (fun i => if i = i₀ then K else 0)).sum = K := by
  intro n
  induction n with
  | zero => omega
  | succ m ih =>
    intro i₀ h
    rw [List.range_succ, List.map_append, List.sum_append]
    by_cases hm : i₀ = m
    · have h0 : ((List.range m).map (fun i => if i = i₀ then K else 0)).sum = 0 := by
        apply List.sum_eq_zero
        intro x hx
        rw [List.mem_map] at hx
        obtain ⟨i, hi, rfl⟩ := hx
        have hne : i ≠ i₀ := by
          have := List.mem_range.1 hi
          omega
        simp [hne]
      rw [h0]
      simp [hm]
    · have hlt : i₀ < m := by omega
      rw [ih hlt]
      have hne2 : ¬(m = i₀) := fun h2 => hm h2.symm
      simp [hne2]

lemma countP_edgesFrom_eq_zero {rows : List String} {sim : Nat → Nat → ℚ}
    {τ : ℚ} {K : Nat} {i : Nat} {s : String} (hs : rows.getD i "" ≠ s) :
    (edgesFrom rows sim τ K i).countP (fun e => e.sourceId == s) = 0 := by
  rw [List.countP_eq_zero]
  intro e he
  have hsrc := (mem_edgesFrom he).1
  simp only [beq_iff_eq]
  exact fun h => hs (hsrc ▸ h)

/-- C2: every similarity edge emitted by an edge-generation run has weight at
least the threshold (and is of type similarity), and — provided the loaded
embedding rows carry pairwise distinct concept ids, one embedding per
concept as the data model prescribes — no source node is given more than
maxEdgesPerNode outgoing similarity edges. -/
theorem graphBuilder_weight_and_outdegree (rows : List String)
    (sim : Nat → Nat → ℚ) (threshold : ℚ) (maxEdgesPerNode : Nat)
    (hnd : rows.Nodup) :
    (∀ e ∈ buildEdges rows sim threshold maxEdgesPerNode,
        threshold ≤ e.weight ∧ e.edgeType = EdgeType.similarity) ∧
    ∀ s : String,
      (buildEdges rows sim threshold maxEdgesPerNode).countP
        (fun e => e.sourceId == s) ≤ maxEdgesPerNode := by
  constructor
  · intro e he
    obtain ⟨i, hi, hei⟩ := mem_buildEdges he
    obtain ⟨het, j, _, _, _, hw, hτ⟩ := (mem_edgesFrom hei).2
    exact ⟨hw ▸ hτ, het⟩
  · intro s
    rw [buildEdges, List.countP_flatten, List.map_map]
    by_cases hex : ∃ i₀, i₀ < rows.length ∧ rows.getD i₀ "" = s
    · obtain ⟨i₀, hi₀, hs⟩ := hex
      have hle : ((List.range rows.length).map
            (List.countP (fun e => e.sourceId == s) ∘
              edgesFrom rows sim threshold maxEdgesPerNode)).sum ≤
          ((List.range rows.length).map
            (fun i => if i = i₀ then maxEdgesPerNode else 0)).sum := by
        apply List.sum_le_sum
        intro i hi
        by_cases hii : i = i₀
        · subst hii
          simp only [Function.comp_apply, if_pos rfl]
          exact le_trans (List.countP_le_length _)
            (length_edgesFrom_le rows sim threshold maxEdgesPerNode i)
        · have hne : rows.getD i "" ≠ s := by
            intro h
            exact hii (getD_inj_of_nodup hnd (List.mem_range.1 hi) hi₀ (h.trans hs.symm))
          simp only [Function.comp_apply, if_neg hii]
          exact le_of_eq (countP_edgesFrom_eq_zero hne)
      exact le_trans hle (le_of_eq (sum_map_indicator maxEdgesPerNode hi₀))
    · have h0 : ((List.range rows.length).map
          (List.countP (fun e => e.sourceId == s) ∘
            edgesFrom rows sim threshold maxEdgesPerNode)).sum = 0 := by
        apply List.sum_eq_zero
        intro x hx
        rw [List.mem_map] at hx
        obtain ⟨i, hi, rfl⟩ := hx
        have hne : rows.getD i "" ≠ s := by
          intro h
          exact hex ⟨i, List.mem_range.1 hi, h⟩
        exact countP_edgesFrom_eq_zero hne
      rw [h0]
      exact Nat.zero_le _

/-- Witness for C2 at a concrete run: two concepts, constant similarity 1,
threshold 1/2, maxEdgesPerNode 1. -/
theorem graphBuilder_weight_and_outdegree_witness :
    (buildEdges ["A", "B"] (fun _ _ => 1) (1 / 2) 1).countP
      (fun e => e.sourceId == "A") ≤ 1 :=
  (graphBuilder_weight_and_outdegree ["A", "B"] (fun _ _ => 1) (1 / 2) 1
    (by decide)).2 "A"

lemma filterMap_if_map {α β : Type} (p : α → Prop) [DecidablePred p]
    (F : α → β) : ∀ l : List α,
      l.filterMap (fun a => if p a then some (F a) else none) =
        (l.filter (fun a => decide (p a))).map F
  | [] => rfl
  | a :: l => by
    by_cases h : p a <;>
      simp [List.filterMap_cons, List.filter_cons, h, filterMap_if_map p F l]

lemma nodup_targets_candidatesFor {rows : List String} {sim : Nat → Nat → ℚ}
    {τ : ℚ} {i : Nat} (hnd : rows.Nodup) :
    ((candidatesFor rows sim τ i).map SimCand.conceptId).Nodup := by
  rw [candidatesFor, filterMap_if_map, List.map_map]
  apply List.Nodup.map_on
  · intro x hx y hy hxy
    obtain ⟨tx, htx, rfl⟩ := List.mem_range'.1 (List.mem_of_mem_filter hx)
    obtain ⟨ty, hty, rfl⟩ := List.mem_range'.1 (List.mem_of_mem_filter hy)
    exact getD_inj_of_nodup hnd (by omega) (by omega) hxy
  · exact List.Nodup.filter _ (List.nodup_range' _ _)

lemma nodup_targets_edgesFrom {rows : List String} {sim : Nat → Nat → ℚ}
    {τ : ℚ} {K : Nat} {i : Nat} (hnd : rows.Nodup) :
    ((edgesFrom rows sim τ K i).map EdgeRec.targetId).Nodup := by
  rw [edgesFrom, List.map_map]
  have hcomp : (EdgeRec.targetId ∘ fun c : SimCand =>
      ({ sourceId := rows.getD i "", targetId := c.conceptId,
         weight := c.similarity, edgeType := EdgeType.similarity } : EdgeRec)) =
      SimCand.conceptId := rfl
  rw [hcomp]
  apply List.Sublist.nodup (List.Sublist.map _ (List.take_sublist K _))
  exact ((sortDescBy_perm SimCand.similarity
      (candidatesFor rows sim τ i)).map SimCand.conceptId).nodup_iff.2
    (nodup_targets_candidatesFor hnd)

lemma countP_targetId_le_one {rows : List String} {sim : Nat → Nat → ℚ}
    {τ : ℚ} {K : Nat} {i : Nat} (hnd : rows.Nodup) (b : String) :
    (edgesFrom rows sim τ K i).countP (fun e => e.targetId == b) ≤ 1 := by
  have h2 : (edgesFrom rows sim τ K i).countP
      ((fun t => t == b) ∘ EdgeRec.targetId) ≤ 1 := by
    rw [← List.countP_map, ← List.count_eq_countP]
    exact List.nodup_iff_count_le_one.1 (nodup_targets_edgesFrom hnd) b
  exact h2

lemma countP_pairPred_le_one_aux {rows : List String} {sim : Nat → Nat → ℚ}
    {τ : ℚ} {K : Nat} (hnd : rows.Nodup) {a b : String} {ia ib : Nat}
    (hia : ia < rows.length) (hib : ib < rows.length)
    (ha : rows.getD ia "" = a) (hb : rows.getD ib "" = b) (hab : a ≠ b)
    (hlt : ia < ib) :
    (buildEdges rows sim τ K).countP (pairPred a b) ≤ 1 := by
  rw [buildEdges, List.countP_flatten, List.map_map]
  have hle : ((List.range rows.length).map
        (List.countP (pairPred a b) ∘ edgesFrom rows sim τ K)).sum ≤
      ((List.range rows.length).map (fun i => if i = ia then 1 else 0)).sum := by
    apply List.sum_le_sum
    intro i hi
    by_cases hiia : i = ia
    · subst hiia
      simp only [Function.comp_apply, if_pos rfl]
      refine le_trans (List.countP_mono_left ?_) (countP_targetId_le_one hnd b)
      intro e he hq
      simp only [pairPred, Bool.or_eq_true, Bool.and_eq_true, beq_iff_eq] at hq
      have hsrc := (mem_edgesFrom he).1
      rcases hq with ⟨h1, h2⟩ | ⟨h1, h2⟩
      · simp [h2]
      · exact absurd (ha ▸ hsrc ▸ h1 : a = b) hab
    · simp only [Function.comp_apply, if_neg hiia]
      rw [Nat.le_zero, List.countP_eq_zero]
      intro e he hq
      simp only [pairPred, Bool.or_eq_true, Bool.and_eq_true, beq_iff_eq] at hq
      obtain ⟨hsrc, _, j, hij, hjn, htgt, _, _⟩ := mem_edgesFrom he
      have hin : i < rows.length := List.mem_range.1 hi
      rcases hq with ⟨h1, h2⟩ | ⟨h1, h2⟩
      · exact hiia (getD_inj_of_nodup hnd hin hia (hsrc ▸ h1 ▸ ha.symm ▸ rfl))
      · have hi_ib : i = ib :=
          getD_inj_of_nodup hnd hin hib (by rw [← hsrc, h1, ← hb])
        have hj_ia : j = ia :=
          getD_inj_of_nodup hnd hjn hia (by rw [← htgt, h2, ← ha])
        omega
  exact le_trans hle (le_of_eq (sum_map_indicator 1 hia))

lemma pairPred_comm (a b : String) : pairPred a b = pairPred b a := by
  funext e
  exact Bool.or_comm _ _

lemma countP_pairPred_zero_of_missing {rows : List String}
    {sim : Nat → Nat → ℚ} {τ : ℚ} {K : Nat} {a b v : String}
    (hv : v = a ∨ v = b)
    (hmiss : ¬ ∃ iv, iv < rows.length ∧ rows.getD iv "" = v) :
    (buildEdges rows sim τ K).countP (pairPred a b) = 0 := by
  rw [List.countP_eq_zero]
  intro e he hq
  simp only [pairPred, Bool.or_eq_true, Bool.and_eq_true, beq_iff_eq] at hq
  obtain ⟨i, hi, hei⟩ := mem_buildEdges he
  obtain ⟨hsrc, _, j, hij, hjn, htgt, _, _⟩ := mem_edgesFrom hei
  rcases hq with ⟨h1, h2⟩ | ⟨h1, h2⟩
  · rcases hv with rfl | rfl
    · exact hmiss ⟨i, hi, hsrc.symm.trans h1⟩
    · exact hmiss ⟨j, hjn, htgt.symm.trans h2⟩
  · rcases hv with rfl | rfl
    · exact hmiss ⟨j, hjn, htgt.symm.trans h2⟩
    · exact hmiss ⟨i, hi, hsrc.symm.trans h1⟩

/-- C10: with pairwise distinct loaded concept ids, one edge-generation run
emits no self-loop; each unordered pair of concepts yields at most one
directed similarity edge; and every emitted edge runs from the concept loaded
earlier to the concept loaded later. -/
theorem graphBuilder_pair_once (rows : List String) (sim : Nat → Nat → ℚ)
    (threshold : ℚ) (maxEdgesPerNode : Nat) (hnd : rows.Nodup) :
    (∀ e ∈ buildEdges rows sim threshold maxEdgesPerNode,
        e.sourceId ≠ e.targetId) ∧
    (∀ a b : String,
        (buildEdges rows sim threshold maxEdgesPerNode).countP (pairPred a b) ≤ 1) ∧
    ∀ e ∈ buildEdges rows sim threshold maxEdgesPerNode,
      ∃ i j, i < j ∧ j < rows.length ∧
        rows.getD i "" = e.sourceId ∧ rows.getD j "" = e.targetId := by
  refine ⟨?_, ?_, ?_⟩
  · intro e he hst
    obtain ⟨i, hi, hei⟩ := mem_buildEdges he
    obtain ⟨hsrc, _, j, hij, hjn, htgt, _, _⟩ := mem_edgesFrom hei
    have : i = j := getD_inj_of_nodup hnd hi hjn (by rw [← hsrc, hst]; exact htgt)
    omega
  · intro a b
    by_cases hab : a = b
    · subst hab
      rw [List.countP_eq_zero.2]
      · exact Nat.zero_le 1
      intro e he hq
      simp only [pairPred, Bool.or_eq_true, Bool.and_eq_true, beq_iff_eq] at hq
      obtain ⟨i, hi, hei⟩ := mem_buildEdges he
      obtain ⟨hsrc, _, j, hij, hjn, htgt, _, _⟩ := mem_edgesFrom hei
      have hst : e.sourceId = e.targetId := by
        rcases hq with ⟨h1, h2⟩ | ⟨h1, h2⟩ <;> rw [h1, h2]
      have : i = j := getD_inj_of_nodup hnd hi hjn (by rw [← hsrc, hst]; exact htgt)
      omega
    · by_cases hA : ∃ iv, iv < rows.length ∧ rows.getD iv "" = a
      · by_cases hB : ∃ iv, iv < rows.length ∧ rows.getD iv "" = b
        · obtain ⟨ia, hia, ha⟩ := hA
          obtain ⟨ib, hib, hb⟩ := hB
          have hne : ia ≠ ib := by
            intro h
            exact hab (ha.symm.trans (h ▸ hb))
          rcases Nat.lt_or_ge ia ib with hlt | hge
          · exact countP_pairPred_le_one_aux hnd hia hib ha hb hab hlt
          · have hlt2 : ib < ia := by omega
            rw [pairPred_comm]
            exact countP_pairPred_le_one_aux hnd hib hia hb ha
              (fun h => hab h.symm) hlt2
        · exact le_trans (le_of_eq (countP_pairPred_zero_of_missing
            (Or.inr rfl) hB)) (Nat.zero_le 1)
      · exact le_trans (le_of_eq (countP_pairPred_zero_of_missing
          (Or.inl rfl) hA)) (Nat.zero_le 1)
  · intro e he
    obtain ⟨i, hi, hei⟩ := mem_buildEdges he
    obtain ⟨hsrc, _, j, hij, hjn, htgt, _, _⟩ := mem_edgesFrom hei
    exact ⟨i, j, hij, hjn, hsrc.symm, htgt.symm⟩

/-- Witness for C10 at the two-concept run with constant similarity 1. -/
theorem graphBuilder_pair_once_witness :
    (buildEdges ["A", "B"] (fun _ _ => 1) (1 / 2) 1).countP
      (pairPred "A" "B") ≤ 1 :=
  (graphBuilder_pair_once ["A", "B"] (fun _ _ => 1) (1 / 2) 1
    (by decide)).2.1 "A" "B"

/-- C1: counterexample to the both-directions claim. On the A, B, C scenario
(cos(A,B) = 0.9, cos(A,C) = cos(B,C) = 0.5, threshold 0.6, K = 1) the code
emits only the single directed edge A -> B: B's candidate list is never fed
with the A comparison (the pair loop only populates the earlier endpoint), so
no B-sourced edge exists, while the spec-described builder would emit B -> A
as well. -/
theorem graphBuilder_scenario_counterexample :
    buildEdges rowsABC simABC (6 / 10) 1 =
      [{ sourceId := "A", targetId := "B", weight := 9 / 10,
         edgeType := EdgeType.similarity }] ∧
    specDescribedBuildEdges rowsABC simABC (6 / 10) 1 =
      [{ sourceId := "A", targetId := "B", weight := 9 / 10,
         edgeType := EdgeType.similarity },
       { sourceId := "B", targetId := "A", weight := 9 / 10,
         edgeType := EdgeType.similarity }] ∧
    (buildEdges rowsABC simABC (6 / 10) 1).countP
      (fun e => e.sourceId == "B") = 0 := by
  refine ⟨?_, ?_, ?_⟩ <;>
    norm_num [buildEdges, specDescribedBuildEdges, rowsABC, simABC, edgesFrom,
      specEdgesFrom, candidatesFor, specCandidatesFor, pairSim, sortDescBy,
      insertDescBy, specSortDesc, specInsertDesc, List.range, List.range.loop,
      List.range', List.filterMap_cons, List.filterMap_nil, List.countP_cons] <;>
    decide

/-- C1 amended: each unordered pair is compared once and feeds only the
earlier-loaded endpoint's candidate list; kept candidates meet the threshold
and every emitted edge runs from the earlier-loaded concept to the
later-loaded one with the computed similarity as weight; the scenario
produces exactly the one directed edge A -> B with weight 0.9. -/
theorem graphBuilder_scenario_amended :
    (buildEdges rowsABC simABC (6 / 10) 1 =
      [{ sourceId := "A", targetId := "B", weight := 9 / 10,
         edgeType := EdgeType.similarity }]) ∧
    ∀ (rows : List String) (sim : Nat → Nat → ℚ) (τ : ℚ) (K : Nat),
      ∀ e ∈ buildEdges rows sim τ K,
        τ ≤ e.weight ∧ ∃ i j, i < j ∧ j < rows.length ∧
          rows.getD i "" = e.sourceId ∧ rows.getD j "" = e.targetId ∧
          e.weight = sim i j := by
  constructor
  · norm_num [buildEdges, rowsABC, simABC, edgesFrom, candidatesFor,
      sortDescBy, insertDescBy, List.range, List.range.loop, List.range',
      List.filterMap_cons, List.filterMap_nil]
  · intro rows sim τ K e he
    obtain ⟨i, hi, hei⟩ := mem_buildEdges he
    obtain ⟨hsrc, _, j, hij, hjn, htgt, hw, hτ⟩ := mem_edgesFrom hei
    exact ⟨hw ▸ hτ, i, j, hij, hjn, hsrc.symm, htgt.symm, hw⟩

/-- Witness for the amended C1 statement at the scenario's single edge. -/
theorem graphBuilder_scenario_amended_witness :
    (6 / 10 : ℚ) ≤
      ({ sourceId := "A", targetId := "B", weight := 9 / 10,
         edgeType := EdgeType.similarity } : EdgeRec).weight := by
  have h := graphBuilder_scenario_amended
  have hmem :
      ({ sourceId := "A", targetId := "B", weight := 9 / 10,
         edgeType := EdgeType.similarity } : EdgeRec) ∈
      buildEdges rowsABC simABC (6 / 10) 1 := by
    rw [h.1]
    exact List.mem_singleton_self _
  exact (h.2 rowsABC simABC (6 / 10) 1 _ hmem).1

/-- C4: counterexample. With no embeddings loaded the route reports failure
(HTTP 400 with the message below), not a zero-edge success. -/
theorem emptyEmbeddings_counterexample :
    runEdgeGeneration [] [] (fun _ _ => 0) (6 / 10) 12 false =
      { response := RouteResponse.err 400
          "No embeddings found. Generate embeddings first.",
        finalEdges := some [] } := rfl

/-- C4 amended: a run over an empty embedding set responds 400 "No embeddings
found. Generate embeddings first." and inserts nothing — though the
clear step has already run, so with clearExisting the table is left empty. -/
theorem emptyEmbeddings_amended (db : List EdgeRec) (sim : Nat → Nat → ℚ)
    (threshold : ℚ) (maxEdgesPerNode : Nat) (clearExisting : Bool) :
    runEdgeGeneration db [] sim threshold maxEdgesPerNode clearExisting =
      { response := RouteResponse.err 400
          "No embeddings found. Generate embeddings first.",
        finalEdges := some (if clearExisting then [] else db) } := by
  cases clearExisting <;> rfl

/-- C5: counterexample. clearExisting removes a citation edge too: the route
deletes the whole edges table, with no edge_type filter. -/
theorem clearExisting_counterexample :
    runEdgeGeneration
      [{ sourceId := "X", targetId := "Y", weight := 1 / 2,
         edgeType := EdgeType.citation }]
      ["A"] (fun _ _ => 0) (6 / 10) 12 true =
      { response := RouteResponse.ok 0, finalEdges := some [] } := rfl

lemma insertPlain_ok_no_collision :
    ∀ (l db res : List EdgeRec), insertPlain db l = Except.ok res →
      ∀ e ∈ l, ∀ e2 ∈ db,
        ¬(e2.sourceId = e.sourceId ∧ e2.targetId = e.targetId ∧
          e2.edgeType = e.edgeType)
  | [], _, _, _, _, he => absurd he (List.not_mem_nil _)
  | a :: l, db, res, h, e, he => by
    rw [insertPlain] at h
    by_cases hany : db.any (fun e2 => e2.sourceId == a.sourceId &&
        e2.targetId == a.targetId && e2.edgeType == a.edgeType)
    · rw [if_pos hany] at h
      cases h
    · rw [if_neg hany] at h
      rcases List.mem_cons.1 he with rfl | he2
      · intro e2 hm hcol
        apply hany
        rw [List.any_eq_true]
        refine ⟨e2, hm, ?_⟩
        simp only [Bool.and_eq_true, beq_iff_eq]
        refine ⟨⟨hcol.1, hcol.2.1⟩, ?_⟩
        rw [hcol.2.2]
        cases e.edgeType <;> decide
      · intro e2 hm hcol
        exact insertPlain_ok_no_collision l (db ++ [a]) res h e he2 e2
          (List.mem_append_left _ hm) hcol

/-- C5 amended: clearExisting=true deletes every prior edge regardless of
type (the run is the same as one starting from an empty table); without
clearExisting the new edges are plainly inserted, so a new edge whose
(source, target, type) key already exists makes the run fail with the
catch-all 500 instead of upserting the weight. -/
theorem clearAndInsert_amended :
    (∀ (db : List EdgeRec) (rows : List String) (sim : Nat → Nat → ℚ)
        (τ : ℚ) (K : Nat),
      runEdgeGeneration db rows sim τ K true =
        runEdgeGeneration [] rows sim τ K true) ∧
    ∀ (db : List EdgeRec) (rows : List String) (sim : Nat → Nat → ℚ)
        (τ : ℚ) (K : Nat),
      (∃ enew ∈ buildEdges rows sim τ K, ∃ eold ∈ db,
        eold.sourceId = enew.sourceId ∧ eold.targetId = enew.targetId ∧
          eold.edgeType = enew.edgeType) →
      rows ≠ [] →
      ∃ msg, (runEdgeGeneration db rows sim τ K false).response =
        RouteResponse.err 500 msg := by
  constructor
  · intro db rows sim τ K
    rfl
  · intro db rows sim τ K hcol hrows
    have hiemp : rows.isEmpty = false := by
      rw [Bool.eq_false_iff]
      intro h
      exact hrows (List.isEmpty_iff.1 h)
    rw [runEdgeGeneration]
    simp only [hiemp, Bool.false_eq_true, if_false]
    cases hins : insertPlain db (buildEdges rows sim τ K) with
    | ok res =>
      exfalso
      obtain ⟨enew, henew, eold, heold, h1, h2, h3⟩ := hcol
      exact insertPlain_ok_no_collision _ db res hins enew henew eold heold
        ⟨h1, h2, h3⟩
    | error msg =>
      exact ⟨msg, rfl⟩

/-- Witness for the amended C5 statement: re-running generation over a table
that already holds the similarity edge A -> B fails with a 500. -/
theorem clearAndInsert_amended_witness :
    ∃ msg,
      (runEdgeGeneration
        [{ sourceId := "A", targetId := "B", weight := 1 / 2,
           edgeType := EdgeType.similarity }]
        ["A", "B"] (fun _ _ => 1) (1 / 2) 12 false).response =
      RouteResponse.err 500 msg := by
  have hbe : buildEdges ["A", "B"] (fun _ _ => 1) (1 / 2) 12 =
      [{ sourceId := "A", targetId := "B", weight := 1,
         edgeType := EdgeType.similarity }] := by
    norm_num [buildEdges, edgesFrom, candidatesFor, sortDescBy, insertDescBy,
      List.range, List.range.loop, List.range', List.filterMap_cons,
      List.filterMap_nil]
  refine clearAndInsert_amended.2 _ _ _ _ _ ?_ (by simp)
  rw [hbe]
  exact ⟨_, List.mem_singleton_self _, _, List.mem_singleton_self _,
    rfl, rfl, rfl⟩

/-! ## LOD tier selection -/

lemma selectLodLevelFrom_of_match (d : ℚ) :
    ∀ (ls : List LODLevel) (cur i : Nat), (∃ l ∈ ls, d ≤ l.distance) →
      selectLodLevelFrom d cur i ls =
        i + ls.findIdx (fun l => decide (d ≤ l.distance))
  | [], cur, i, h => absurd h (by simp)
  | l :: ls, cur, i, h => by
    rw [selectLodLevelFrom, List.findIdx_cons]
    by_cases hd : d ≤ l.distance
    · simp [hd]
    · have h2 : ∃ l2 ∈ ls, d ≤ l2.distance := by
        rcases h with ⟨l2, hl2, hle⟩
        rcases List.mem_cons.1 hl2 with rfl | hm
        · exact absurd hle hd
        · exact ⟨l2, hm, hle⟩
      rw [if_neg hd, selectLodLevelFrom_of_match d ls i (i + 1) h2,
        decide_eq_false hd, cond_false]
      omega

lemma selectLodLevel_eq_findIdx (levels : List LODLevel) (d : ℚ)
    (h : ∃ l ∈ levels, d ≤ l.distance) :
    selectLodLevel levels d =
      levels.findIdx (fun l => decide (d ≤ l.distance)) := by
  rw [selectLodLevel, selectLodLevelFrom_of_match d levels 0 0 h, Nat.zero_add]

lemma lodCompute_currentLodLevel (nodes : List LODNode) (maxNodes : Nat)
    (fc cl : Bool) (levels : List LODLevel) (d : ℚ) (nodeDist : LODNode → ℚ)
    (inFrustum : LODNode → Bool) :
    (lodCompute nodes maxNodes fc cl levels d nodeDist inFrustum).currentLodLevel =
      selectLodLevel levels d := rfl

lemma lodCompute_visibleNodes (nodes : List LODNode) (maxNodes : Nat)
    (fc cl : Bool) (levels : List LODLevel) (d : ℚ) (nodeDist : LODNode → ℚ)
    (inFrustum : LODNode → Bool) :
    (lodCompute nodes maxNodes fc cl levels d nodeDist inFrustum).visibleNodes =
      (sortDescBy (lodScore (selectLodLevel levels d) nodeDist)
        (lodPrepared nodes fc cl levels d inFrustum)).take
        (min (levels.getD (selectLodLevel levels d) defaultLevel).maxNodes
          maxNodes) := rfl

lemma lodCompute_length_le (nodes : List LODNode) (maxNodes : Nat)
    (fc cl : Bool) (levels : List LODLevel) (d : ℚ) (nodeDist : LODNode → ℚ)
    (inFrustum : LODNode → Bool) :
    (lodCompute nodes maxNodes fc cl levels d nodeDist inFrustum).visibleNodes.length ≤
      (levels.getD (selectLodLevel levels d) defaultLevel).maxNodes := by
  rw [lodCompute_visibleNodes, List.length_take]
  exact le_trans (min_le_left _ _) (min_le_left _ _)

/-- C6: the LOD computation selects the first tier whose distance bound is at
least the camera distance (when one exists), the visible set never exceeds
the selected tier's node budget, and on the scenario — camera distance 50
with tiers (100, 600, 1.0) and (300, 400, 1.2) — tier 0 is selected and at
most 600 nodes are returned. -/
theorem lod_tier_selection (nodes : List LODNode) (maxNodes : Nat)
    (fc cl : Bool) (levels : List LODLevel) (d : ℚ) (nodeDist : LODNode → ℚ)
    (inFrustum : LODNode → Bool) (hne : levels ≠ []) :
    ((∃ l ∈ levels, d ≤ l.distance) →
      (lodCompute nodes maxNodes fc cl levels d nodeDist inFrustum).currentLodLevel =
        levels.findIdx (fun l => decide (d ≤ l.distance))) ∧
    (lodCompute nodes maxNodes fc cl levels d nodeDist inFrustum).visibleNodes.length ≤
      (levels.getD
        (lodCompute nodes maxNodes fc cl levels d nodeDist inFrustum).currentLodLevel
        defaultLevel).maxNodes ∧
    (lodCompute nodes maxNodes fc cl
      [{ distance := 100, maxNodes := 600, minSize := 1, clusterRadius := none },
       { distance := 300, maxNodes := 400, minSize := 6 / 5, clusterRadius := none }]
      50 nodeDist inFrustum).currentLodLevel = 0 ∧
    (lodCompute nodes maxNodes fc cl
      [{ distance := 100, maxNodes := 600, minSize := 1, clusterRadius := none },
       { distance := 300, maxNodes := 400, minSize := 6 / 5, clusterRadius := none }]
      50 nodeDist inFrustum).visibleNodes.length ≤ 600 := by
  refine ⟨?_, ?_, ?_, ?_⟩
  · intro h
    rw [lodCompute_currentLodLevel]
    exact selectLodLevel_eq_findIdx levels d h
  · rw [lodCompute_currentLodLevel]
    exact lodCompute_length_le nodes maxNodes fc cl levels d nodeDist inFrustum
  · rw [lodCompute_currentLodLevel]
    norm_num [selectLodLevel, selectLodLevelFrom]
  · have h := lodCompute_length_le nodes maxNodes fc cl
      [{ distance := 100, maxNodes := 600, minSize := 1, clusterRadius := none },
       { distance := 300, maxNodes := 400, minSize := 6 / 5, clusterRadius := none }]
      50 nodeDist inFrustum
    have hsel : selectLodLevel
        [{ distance := 100, maxNodes := 600, minSize := 1, clusterRadius := none },
         { distance := 300, maxNodes := 400, minSize := 6 / 5, clusterRadius := none }]
        (50 : ℚ) = 0 := by
      norm_num [selectLodLevel, selectLodLevelFrom]
    rw [hsel] at h
    exact h

/-- Witness for C6 on the scenario inputs with an empty node set. -/
theorem lod_tier_selection_witness :
    (lodCompute [] 300 true true
      [{ distance := 100, maxNodes := 600, minSize := 1, clusterRadius := none },
       { distance := 300, maxNodes := 400, minSize := 6 / 5, clusterRadius := none }]
      50 (fun _ => 0) (fun _ => true)).currentLodLevel = 0 ∧
    (lodCompute [] 300 true true
      [{ distance := 100, maxNodes := 600, minSize := 1, clusterRadius := none },
       { distance := 300, maxNodes := 400, minSize := 6 / 5, clusterRadius := none }]
      50 (fun _ => 0) (fun _ => true)).visibleNodes.length ≤ 600 := by
  have h := lod_tier_selection [] 300 true true
    [{ distance := 100, maxNodes := 600, minSize := 1, clusterRadius := none },
     { distance := 300, maxNodes := 400, minSize := 6 / 5, clusterRadius := none }]
    50 (fun _ => 0) (fun _ => true) (by simp)
  exact ⟨h.2.2.1, h.2.2.2⟩

/-! ## The LOD computation on an empty node set -/

lemma clusterNodes_nil (cl : Bool) (r : ℚ) : clusterNodes cl [] r = [] := by
  rw [clusterNodes]
  split
  · rfl
  · rfl

lemma lodPrepared_nil (fc cl : Bool) (levels : List LODLevel) (d : ℚ)
    (inFrustum : LODNode → Bool) :
    lodPrepared [] fc cl levels d inFrustum = [] := by
  have hculled : lodCulled [] fc inFrustum = [] := by
    rw [lodCulled]
    cases fc <;> rfl
  rw [lodPrepared]
  simp only [hculled]
  cases hmatch : (levels.getD (selectLodLevel levels d) defaultLevel).clusterRadius <;>
    simp [hmatch, clusterNodes_nil]

/-- C8: counterexample. With an empty node set but camera distance 200 and
the first two default tiers (bounds 100 and 300), the LOD computation returns
the empty visible set with tier index 1, not 0: the tier index follows the
camera distance regardless of the node set. -/
theorem lod_empty_counterexample :
    (lodCompute [] 300 true true
      [{ distance := 100, maxNodes := 500, minSize := 1, clusterRadius := none },
       { distance := 300, maxNodes := 300, minSize := 6 / 5, clusterRadius := none }]
      200 (fun _ => 0) (fun _ => true)).visibleNodes = [] ∧
    (lodCompute [] 300 true true
      [{ distance := 100, maxNodes := 500, minSize := 1, clusterRadius := none },
       { distance := 300, maxNodes := 300, minSize := 6 / 5, clusterRadius := none }]
      200 (fun _ => 0) (fun _ => true)).currentLodLevel = 1 := by
  have hsel : selectLodLevel
      [{ distance := 100, maxNodes := 500, minSize := 1, clusterRadius := none },
       { distance := 300, maxNodes := 300, minSize := 6 / 5, clusterRadius := none }]
      (200 : ℚ) = 1 := by
    norm_num [selectLodLevel, selectLodLevelFrom]
  have hvis := lodCompute_visibleNodes []
    300 true true
    [{ distance := 100, maxNodes := 500, minSize := 1, clusterRadius := none },
     { distance := 300, maxNodes := 300, minSize := 6 / 5, clusterRadius := none }]
    200 (fun _ => 0) (fun _ => true)
  have hlvl := lodCompute_currentLodLevel []
    300 true true
    [{ distance := 100, maxNodes := 500, minSize := 1, clusterRadius := none },
     { distance := 300, maxNodes := 300, minSize := 6 / 5, clusterRadius := none }]
    200 (fun _ => 0) (fun _ => true)
  rw [lodPrepared_nil] at hvis
  constructor
  · rw [hvis]
    simp [sortDescBy, List.take_nil]
  · rw [hlvl, hsel]

/-- C8 amended: on an empty node set the LOD computation returns an empty
visible set, while the tier index is computed from the camera distance and
tier list exactly as for nonempty sets — it is 0 precisely when the camera
distance lies within the first tier's bound. -/
theorem lod_empty_amended (maxNodes : Nat) (fc cl : Bool) (l0 : LODLevel)
    (rest : List LODLevel) (d : ℚ) (nodeDist : LODNode → ℚ)
    (inFrustum : LODNode → Bool) :
    (lodCompute [] maxNodes fc cl (l0 :: rest) d nodeDist inFrustum).visibleNodes = [] ∧
    (lodCompute [] maxNodes fc cl (l0 :: rest) d nodeDist inFrustum).currentLodLevel =
      selectLodLevel (l0 :: rest) d ∧
    (d ≤ l0.distance →
      (lodCompute [] maxNodes fc cl (l0 :: rest) d nodeDist inFrustum).currentLodLevel = 0) := by
  refine ⟨?_, lodCompute_currentLodLevel _ _ _ _ _ _ _ _, ?_⟩
  · rw [lodCompute_visibleNodes, lodPrepared_nil]
    simp [sortDescBy, List.take_nil]
  · intro h
    rw [lodCompute_currentLodLevel, selectLodLevel, selectLodLevelFrom, if_pos h]

/-- Witness for the amended C8 statement at camera distance 50 within the
first tier bound 100. -/
theorem lod_empty_amended_witness :
    (lodCompute [] 300 true true
      [{ distance := 100, maxNodes := 500, minSize := 1, clusterRadius := none },
       { distance := 300, maxNodes := 300, minSize := 6 / 5, clusterRadius := none }]
      50 (fun _ => 0) (fun _ => true)).visibleNodes = [] ∧
    (lodCompute [] 300 true true
      [{ distance := 100, maxNodes := 500, minSize := 1, clusterRadius := none },
       { distance := 300, maxNodes := 300, minSize := 6 / 5, clusterRadius := none }]
      50 (fun _ => 0) (fun _ => true)).currentLodLevel = 0 := by
  have h := lod_empty_amended 300 true true
    { distance := 100, maxNodes := 500, minSize := 1, clusterRadius := none }
    [{ distance := 300, maxNodes := 300, minSize := 6 / 5, clusterRadius := none }]
    50 (fun _ => 0) (fun _ => true)
  exact ⟨h.1, h.2.2 (by norm_num)⟩

/-! ## Clustering -/

lemma mem_insertKeyOnce {k k0 : ℤ × ℤ × ℤ} {ks : List (ℤ × ℤ × ℤ)} :
    k ∈ insertKeyOnce k0 ks ↔ k ∈ ks ∨ k = k0 := by
  rw [insertKeyOnce]
  by_cases h : k0 ∈ ks
  · rw [if_pos h]
    constructor
    · exact Or.inl
    · rintro (hk | rfl)
      · exact hk
      · exact h
  · rw [if_neg h, List.mem_append, List.mem_singleton]

lemma nodup_insertKeyOnce {k0 : ℤ × ℤ × ℤ} {ks : List (ℤ × ℤ × ℤ)}
    (h : ks.Nodup) : (insertKeyOnce k0 ks).Nodup := by
  rw [insertKeyOnce]
  by_cases hm : k0 ∈ ks
  · rw [if_pos hm]
    exact h
  · rw [if_neg hm]
    rw [List.nodup_append]
    exact ⟨h, List.nodup_singleton k0, by simpa using hm⟩

lemma mem_foldl_insertKey (r : ℚ) :
    ∀ (nodes : List LODNode) (ks : List (ℤ × ℤ × ℤ)) (k : ℤ × ℤ × ℤ),
      k ∈ nodes.foldl (fun acc n => insertKeyOnce (cellKey r n) acc) ks ↔
        k ∈ ks ∨ ∃ x ∈ nodes, cellKey r x = k
  | [], ks, k => by simp
  | n :: nodes, ks, k => by
    rw [List.foldl_cons, mem_foldl_insertKey r nodes _ k]
    rw [mem_insertKeyOnce]
    constructor
    · rintro ((hk | rfl) | ⟨x, hx, rfl⟩)
      · exact Or.inl hk
      · exact Or.inr ⟨n, List.mem_cons_self n nodes, rfl⟩
      · exact Or.inr ⟨x, List.mem_cons_of_mem n hx, rfl⟩
    · rintro (hk | ⟨x, hx, rfl⟩)
      · exact Or.inl (Or.inl hk)
      · rcases List.mem_cons.1 hx with rfl | hx2
        · exact Or.inl (Or.inr rfl)
        · exact Or.inr ⟨x, hx2, rfl⟩

lemma nodup_foldl_insertKey (r : ℚ) :
    ∀ (nodes : List LODNode) (ks : List (ℤ × ℤ × ℤ)), ks.Nodup →
      (nodes.foldl (fun acc n => insertKeyOnce (cellKey r n) acc) ks).Nodup
  | [], ks, h => h
  | n :: nodes, ks, h =>
    nodup_foldl_insertKey r nodes _ (nodup_insertKeyOnce h)

lemma mem_cellKeys {r : ℚ} {nodes : List LODNode} {k : ℤ × ℤ × ℤ} :
    k ∈ cellKeys r nodes ↔ ∃ x ∈ nodes, cellKey r x = k := by
  rw [cellKeys, mem_foldl_insertKey]
  simp

lemma nodup_cellKeys (r : ℚ) (nodes : List LODNode) : (cellKeys r nodes).Nodup :=
  nodup_foldl_insertKey r nodes [] List.nodup_nil

lemma pickRep_mem : ∀ (cs : List LODNode) (prev : LODNode),
    pickRep prev cs ∈ prev :: cs
  | [], prev => List.mem_singleton_self prev
  | c :: cs, prev => by
    rw [pickRep]
    have h := pickRep_mem cs (if impOr prev < impOr c then c else prev)
    rcases List.mem_cons.1 h with he | he
    · rw [he]
      split
      · exact List.mem_cons_of_mem _ (List.mem_cons_self _ _)
      · exact List.mem_cons_self _ _
    · exact List.mem_cons_of_mem _ (List.mem_cons_of_mem _ he)

lemma pickRep_max : ∀ (cs : List LODNode) (prev : LODNode),
    ∀ x ∈ prev :: cs, impOr x ≤ impOr (pickRep prev cs)
  | [], prev, x, hx => by
    rcases List.mem_cons.1 hx with rfl | hx
    · exact le_refl _
    · exact absurd hx (List.not_mem_nil x)
  | c :: cs, prev, x, hx => by
    rw [pickRep]
    have hnext : impOr prev ≤ impOr (if impOr prev < impOr c then c else prev) := by
      split
      · rename_i hlt
        exact le_of_lt hlt
      · exact le_refl _
    have hnextc : impOr c ≤ impOr (if impOr prev < impOr c then c else prev) := by
      split
      · exact le_refl _
      · rename_i hge
        exact le_of_not_lt hge
    rcases List.mem_cons.1 hx with rfl | hx2
    · exact le_trans hnext (pickRep_max cs _ _ (List.mem_cons_self _ _))
    · rcases List.mem_cons.1 hx2 with rfl | hx3
      · exact le_trans hnextc (pickRep_max cs _ _ (List.mem_cons_self _ _))
      · exact pickRep_max cs _ _ (List.mem_cons_of_mem _ hx3)

/-- C7: counterexample to "category = maximum among members". Two nodes share
a grid cell at radius 10; the collapsed representative takes the category of
the most important member ("A", importance 0.9), not the maximum category
among members ("Z" is the larger of "A" and "Z"). -/
theorem clustering_category_counterexample :
    (clusterNodes true [nodeP, nodeQ] 10).map (fun n => n.category) =
      [some "A"] ∧
    max ("A" : String) "Z" = "Z" ∧
    nodeQ.category = some "Z" := by
  refine ⟨?_, max_eq_right (le_of_lt (String.lt_iff_toList_lt.2 (by decide))), rfl⟩
  norm_num [clusterNodes, groupByCell, cellKeys, insertKeyOnce, cellKey,
    collapseCell, pickRep, impOr, nodeP, nodeQ]

/-- C7 amended: nodes sharing a grid cell land in the single group of that
cell, and a group with at least two members collapses to exactly one
representative placed at the member centroid, with size
min(1.5 x average member size, 3.0), importance the maximum among members,
and category (and title stem) taken from the first member attaining the
maximal importance — not from any maximum over categories. -/
theorem clustering_amended (r : ℚ) (nodes : List LODNode) (a b : LODNode)
    (hr : r ≠ 0) (ha : a ∈ nodes) (hb : b ∈ nodes)
    (hk : cellKey r a = cellKey r b) :
    clusterNodes true nodes r =
      ((groupByCell r nodes).map (fun g => collapseCell g.2)).flatten ∧
    ∃ g ∈ groupByCell r nodes, a ∈ g.2 ∧ b ∈ g.2 ∧
      (∀ g2 ∈ groupByCell r nodes, a ∈ g2.2 → g2 = g) ∧
      (2 ≤ g.2.length →
        ∃ rep m, collapseCell g.2 = [rep] ∧ m ∈ g.2 ∧
          (∀ x ∈ g.2, impOr x ≤ impOr m) ∧
          rep.position = centroid g.2 ∧
          rep.size = min (avgSizeOf g.2 * (3 / 2)) 3 ∧
          rep.importance = some (maxImpOf g.2) ∧
          rep.category = m.category ∧
          rep.title = m.title ++ " (+" ++ toString (g.2.length - 1) ++ " more)") := by
  constructor
  · rw [clusterNodes, if_neg]
    rintro (h | h)
    · cases h
    · exact hr h
  · refine ⟨(cellKey r a, nodes.filter (fun n => decide (cellKey r n = cellKey r a))),
      ?_, ?_, ?_, ?_, ?_⟩
    · rw [groupByCell, List.mem_map]
      exact ⟨cellKey r a, mem_cellKeys.2 ⟨a, ha, rfl⟩, rfl⟩
    · exact List.mem_filter.2 ⟨ha, by simp⟩
    · exact List.mem_filter.2 ⟨hb, by simp [hk]⟩
    · rintro ⟨k2, l2⟩ hg2 hag2
      rw [groupByCell, List.mem_map] at hg2
      obtain ⟨k3, hk3, hpair⟩ := hg2
      injection hpair with h1 h2
      subst h1
      subst h2
      have hka : cellKey r a = k3 := by
        have := (List.mem_filter.1 hag2).2
        simpa using this
      rw [← hka]
    · intro hlen
      rcases hml : nodes.filter (fun n => decide (cellKey r n = cellKey r a)) with
        _ | ⟨n1, ml⟩
      · rw [hml] at hlen
        simp at hlen
      rcases hml2 : ml with _ | ⟨n2, ml2⟩
      · rw [hml, hml2] at hlen
        simp at hlen
      refine ⟨{ pickRep n1 (n2 :: ml2) with
          position := centroid (n1 :: n2 :: ml2),
          size := min (avgSizeOf (n1 :: n2 :: ml2) * (3 / 2)) 3,
          importance := some (maxImpOf (n1 :: n2 :: ml2)),
          title := (pickRep n1 (n2 :: ml2)).title ++ " (+" ++
            toString ((n1 :: n2 :: ml2).length - 1) ++ " more)" },
        pickRep n1 (n2 :: ml2), ?_, ?_, ?_, rfl, rfl, rfl, rfl, rfl⟩
      · simp [collapseCell]
      · exact pickRep_mem (n2 :: ml2) n1
      · exact pickRep_max (n2 :: ml2) n1

/-- Witness for the amended C7 statement: nodeP and nodeQ share the cell
(0, 0, 0) at radius 10 and land in one group. -/
theorem clustering_amended_witness :
    ∃ g ∈ groupByCell 10 [nodeP, nodeQ], nodeP ∈ g.2 ∧ nodeQ ∈ g.2 := by
  have h := clustering_amended 10 [nodeP, nodeQ] nodeP nodeQ (by norm_num)
    (by simp) (by simp)
    (by norm_num [cellKey, nodeP, nodeQ])
  obtain ⟨g, hg, hag, hbg, _⟩ := h.2
  exact ⟨g, hg, hag, hbg⟩

/-- C3: the bug, evaluated. On the text-fallback path a query hit is returned
with the fabricated constant similarity 1.0 — and in general every result of
the text search carries similarity 1.0; SearchResultRec (mirroring
SearchResultSchema) has no result-kind field, so nothing but that number
distinguishes a fallback hit from a ranked vector result. -/
theorem textSearch_placeholder_similarity :
    ((textSearch [{ id := "c1", title := "Alpha", summary := "About alpha." }]
        "alpha" 20).map (fun r => r.similarity) = [1]) ∧
    ∀ (rows : List ConceptRow) (query : String) (limit : Nat),
      (textSearch rows query limit).all
        (fun r => decide (r.similarity = 1)) = true := by
  constructor
  · decide
  · intro rows query limit
    rw [textSearch, List.all_eq_true]
    intro r hr
    rw [List.mem_map] at hr
    obtain ⟨c, _, rfl⟩ := hr
    simp

/-- C9: on a neighbor list sorted descending by weight (as the SQL query
delivers it), the wormhole computation — a pure function of its inputs —
returns only neighbors drawn from the list whose category differs from the
source concept's and whose weight strictly exceeds the 0.8 threshold, in
descending weight order, at most 5 of them. -/
theorem wormholes_filter (cat : Option String) (neighbors : List NeighborRow)
    (hs : neighbors.Pairwise (fun x y => y.weight ≤ x.weight)) :
    (∀ w ∈ findWormholes cat neighbors,
        w.category ≠ cat ∧ (4 / 5 : ℚ) < w.weight ∧ w ∈ neighbors) ∧
    (findWormholes cat neighbors).Pairwise (fun x y => y.weight ≤ x.weight) ∧
    (findWormholes cat neighbors).length ≤ 5 := by
  refine ⟨?_, ?_, ?_⟩
  · intro w hw
    have hw2 : w ∈ neighbors.filter (fun nb =>
        truthyCat nb.category && truthyCat cat &&
          !(decide (nb.category = cat)) && decide ((4 / 5 : ℚ) < nb.weight)) :=
      (List.take_sublist 5 _).subset hw
    have hmem := List.mem_of_mem_filter hw2
    have hpred := (List.mem_filter.1 hw2).2
    simp only [Bool.and_eq_true, Bool.not_eq_true', decide_eq_false_iff_not,
      decide_eq_true_eq] at hpred
    exact ⟨hpred.1.2, hpred.2, hmem⟩
  · exact List.Pairwise.sublist (List.take_sublist 5 _)
      (List.Pairwise.filter _ hs)
  · rw [findWormholes, List.length_take]
    exact min_le_left _ _

/-- Witness for C9 on a one-element neighbor list. -/
theorem wormholes_filter_witness :
    (findWormholes (some "A")
      [{ conceptId := "n1", category := some "B", weight := 9 / 10 }]).length ≤ 5 :=
  (wormholes_filter (some "A")
    [{ conceptId := "n1", category := some "B", weight := 9 / 10 }]
    (by simp)).2.2

end Lynx
